import Mathlib

/-!
Verification of the fnkt generation/execution pipeline.

The file embeds the two core modules of the repository:

* `fnkt/generator.py` — `clean_generated_code` (the two `re.sub` passes and the
  final `strip`), the section parsing of the completion response, the Jinja
  template rendering (plain placeholder substitution; Jinja's default
  `keep_trailing_newline=False` drops the template's final newline), the output
  filename derivation and the file write.  The LLM completion boundary is
  modelled as an explicit `content` argument, `uuid.uuid4().hex[:8]` as an
  explicit `uuidHex8` argument, and the filesystem as an explicit map.
* `fnkt/runner.py` — `run_in_container`: existence check, artifact-mapping
  validation, command-vector construction, and the mapping of a non-zero child
  exit to `ContainerExecutionError` (the error is modelled by its message).

`re.sub(r'(three backticks)(?:python)?', '', code)` is embedded by
`subFences`, a left-to-right scan removing each leftmost occurrence (greedy:
the `python` suffix is consumed when present).  `re.sub(r'^#+\s+', '', code,
flags=re.MULTILINE)` is embedded by the four-state machine `shStep`/`shRun`:
at a line start a maximal run of `#` followed by a maximal run of whitespace
(which may span newlines, exactly as the greedy `\s+` does) is deleted; the
line-start flag after a deleted run is determined by whether the last deleted
whitespace character was a newline, matching how `re.sub` resumes scanning in
the original string.  `\s` is modelled on its ASCII fragment, which covers
every character appearing in the program's template and in the statements
below.
-/

namespace Fnkt

/-- ASCII fragment of Python's regex `\s` and of `str.strip`'s default
whitespace set: space, tab, newline, carriage return, vertical tab, form feed. -/
def isPySpace (c : Char) : Bool :=
  c = ' ' || c = '\t' || c = '\n' || c = '\r' || c = Char.ofNat 11 || c = Char.ofNat 12

/-- The backtick character. -/
def bq : Char := Char.ofNat 96

/-- Generic run of a character scanner: thread the state, concatenate the
emitted chunks. -/
def scanRun {σ : Type} (step : σ → Char → σ × List Char) : σ → List Char → σ × List Char
  | st, [] => (st, [])
  | st, c :: cs =>
    let p1 := step st c
    let p2 := scanRun step p1.1 cs
    (p2.1, p1.2 ++ p2.2)

/-- Scanner state for the fence substitution: `f0` = nothing pending, `b1`/`b2`
= one/two pending backticks, `py k` = a fence has just been removed and the
first `k` characters of the literal `python` have been consumed after it. -/
inductive FenceSt where
  | f0 : FenceSt
  | b1 : FenceSt
  | b2 : FenceSt
  | py : Nat → FenceSt
deriving DecidableEq

/-- Character `k` of the literal `python`. -/
def pyChar : Nat → Char
  | 0 => 'p'
  | 1 => 'y'
  | 2 => 't'
  | 3 => 'h'
  | 4 => 'o'
  | _ => 'n'

/-- The first `k` characters of the literal `python`. -/
def pyPre : Nat → List Char
  | 0 => []
  | 1 => ['p']
  | 2 => ['p', 'y']
  | 3 => ['p', 'y', 't']
  | 4 => ['p', 'y', 't', 'h']
  | _ => ['p', 'y', 't', 'h', 'o']

/-- One step of the fence scanner.  After a removed fence the optional `python`
suffix is matched greedily; on a mismatch the matched prefix is emitted as
ordinary text (the letters of `python` are pairwise distinct and none is a
backtick, so restarting the match at the current character is exact). -/
def sfStep : FenceSt → Char → FenceSt × List Char
  | FenceSt.f0, c =>
    if c = bq then (FenceSt.b1, []) else (FenceSt.f0, [c])
  | FenceSt.b1, c =>
    if c = bq then (FenceSt.b2, []) else (FenceSt.f0, [bq, c])
  | FenceSt.b2, c =>
    if c = bq then (FenceSt.py 0, []) else (FenceSt.f0, [bq, bq, c])
  | FenceSt.py k, c =>
    if c = pyChar k then
      if k = 5 then (FenceSt.f0, []) else (FenceSt.py (k + 1), [])
    else if c = bq then (FenceSt.b1, pyPre k)
    else (FenceSt.f0, pyPre k ++ [c])

/-- Characters still pending at end of input for the fence scanner. -/
def sfFlush : FenceSt → List Char
  | FenceSt.f0 => []
  | FenceSt.b1 => [bq]
  | FenceSt.b2 => [bq, bq]
  | FenceSt.py k => pyPre k

/-- Embedding of `re.sub` with pattern "three backticks, optionally followed by
the literal word python", replacement "": remove each leftmost occurrence and
continue scanning after it (`generator.py` line 54). -/
def subFences (l : List Char) : List Char :=
  (scanRun sfStep FenceSt.f0 l).2 ++ sfFlush (scanRun sfStep FenceSt.f0 l).1

/-- Scanner state for the MULTILINE `^#+\s+` substitution: `start` = at a line
start, `hashes n` = after `n` hash marks at a line start, `wsEat nl` = inside
the whitespace run of a match (`nl` records whether the last consumed
whitespace character was a newline), `normal` = inside an ordinary line. -/
inductive SH where
  | start : SH
  | hashes : Nat → SH
  | wsEat : Bool → SH
  | normal : SH
deriving DecidableEq

/-- One step of the `^#+\s+` scanner: next state and emitted characters
(`generator.py` line 56). -/
def shStep : SH → Char → SH × List Char
  | SH.start, c =>
    if c = '#' then (SH.hashes 1, [])
    else (if c = '\n' then SH.start else SH.normal, [c])
  | SH.hashes n, c =>
    if c = '#' then (SH.hashes (n + 1), [])
    else if isPySpace c then (SH.wsEat (c = '\n'), [])
    else (SH.normal, List.replicate n '#' ++ [c])
  | SH.wsEat nl, c =>
    if isPySpace c then (SH.wsEat (c = '\n'), [])
    else if nl && c = '#' then (SH.hashes 1, [])
    else (SH.normal, [c])
  | SH.normal, c =>
    (if c = '\n' then SH.start else SH.normal, [c])

/-- Characters still pending at end of input: a hash run not followed by
whitespace is not a match of `^#+\s+` and is emitted. -/
def shFlush : SH → List Char
  | SH.hashes n => List.replicate n '#'
  | _ => []

/-- Embedding of `re.sub(r'^#+\s+', '', code, flags=re.MULTILINE)`. -/
def stripHeaders (l : List Char) : List Char :=
  (scanRun shStep SH.start l).2 ++ shFlush (scanRun shStep SH.start l).1

/-- Embedding of Python `str.strip()` (no argument: strip whitespace at both
ends). -/
def pyStrip (l : List Char) : List Char :=
  ((l.dropWhile isPySpace).reverse.dropWhile isPySpace).reverse

/-- `str.strip()` on strings. -/
def pyStripStr (s : String) : String := String.mk (pyStrip s.data)

/-- Embedding of `clean_generated_code` (`generator.py` lines 49-57): remove
code fences, remove `^#+\s+` line prefixes, then strip. -/
def clean_generated_code (s : String) : String :=
  String.mk (pyStrip (stripHeaders (subFences s.data)))

/-- Occurrence test for a character-list pattern, embedding Python's
`sub in s`. -/
def listHasSub (sub : List Char) : List Char → Bool
  | [] => sub.isEmpty
  | c :: cs => sub.isPrefixOf (c :: cs) || listHasSub sub cs

/-- Python `sub in hay` on strings. -/
def strContains (hay sub : String) : Bool := listHasSub sub.data hay.data

/-- Fuelled worker for Python `str.split(sep)` with a non-empty separator. -/
def splitOnSubFuel (sep : List Char) : Nat → List Char → List (List Char)
  | _, [] => [[]]
  | 0, l => [l]
  | Nat.succ f, c :: cs =>
    if sep.isPrefixOf (c :: cs) then
      [] :: splitOnSubFuel sep f (List.drop sep.length (c :: cs))
    else
      match splitOnSubFuel sep f cs with
      | [] => [[c]]
      | h :: t => (c :: h) :: t

/-- Embedding of Python `str.split(sep)` (all parts, left to right). -/
def splitOnSub (sep : List Char) (l : List Char) : List (List Char) :=
  splitOnSubFuel sep l.length l

/-- Embedding of Python `str.replace(sep, "")`: remove every occurrence. -/
def replaceRemove (sep : List Char) (l : List Char) : List Char :=
  (splitOnSub sep l).foldr (fun a b => a ++ b) []

/-- Alternate reading of `subFences`: emitted output plus pending characters,
parameterised by the scanner state.  `subFences l = sfOut FenceSt.f0 l`. -/
def sfOut (st : FenceSt) (l : List Char) : List Char :=
  (scanRun sfStep st l).2 ++ sfFlush (scanRun sfStep st l).1

/-- The last `6 - k` characters of the literal `python`. -/
def pyRest : Nat → List Char
  | 0 => ['p', 'y', 't', 'h', 'o', 'n']
  | 1 => ['y', 't', 'h', 'o', 'n']
  | 2 => ['t', 'h', 'o', 'n']
  | 3 => ['h', 'o', 'n']
  | 4 => ['o', 'n']
  | _ => ['n']

/-- Tokens of an input interleaving fence markers with fence-free text: a bare
triple-backtick fence, a fence carrying the `python` info word (which the
pattern's optional group also consumes), or a text chunk without backticks. -/
inductive MdTok where
  | fence : MdTok
  | fencePy : MdTok
  | text : List Char → MdTok

/-- Concatenate a token list back into the scanned character stream. -/
def renderToks : List MdTok → List Char
  | [] => []
  | MdTok.fence :: rest => bq :: bq :: bq :: renderToks rest
  | MdTok.fencePy :: rest => bq :: bq :: bq :: 'p' :: 'y' :: 't' :: 'h' :: 'o' :: 'n' :: renderToks rest
  | MdTok.text t :: rest => t ++ renderToks rest

/-- The non-marker text of a token list. -/
def textOf : List MdTok → List Char
  | [] => []
  | MdTok.fence :: rest => textOf rest
  | MdTok.fencePy :: rest => textOf rest
  | MdTok.text t :: rest => t ++ textOf rest

/-- Canonical tokenization: text chunks carry no backtick, and a bare fence is
not followed by the word `python` (that reading would be the `fencePy` token,
which is what the greedy optional group matches). -/
def mdWfB : List MdTok → Bool
  | [] => true
  | MdTok.fence :: rest => !((pyRest 0).isPrefixOf (renderToks rest)) && mdWfB rest
  | MdTok.fencePy :: rest => mdWfB rest
  | MdTok.text t :: rest => decide (bq ∉ t) && mdWfB rest

/-- A line of the text stream: either an ordinary line, or a line opened by a
heading marker (`n + 1` hash marks and a non-empty horizontal whitespace run)
followed by the heading text. -/
inductive MdLine where
  | plain : List Char → MdLine
  | header : Nat → List Char → List Char → MdLine

/-- The characters of a line, marker included. -/
def renderLine : MdLine → List Char
  | MdLine.plain t => t
  | MdLine.header n ws t => List.replicate (n + 1) '#' ++ ws ++ t

/-- The characters of a line, marker removed. -/
def lineText : MdLine → List Char
  | MdLine.plain t => t
  | MdLine.header _ _ t => t

/-- Join rendered lines with newlines. -/
def renderLines : List MdLine → List Char
  | [] => []
  | [l] => renderLine l
  | l :: rest => renderLine l ++ '\n' :: renderLines rest

/-- Join marker-free lines with newlines. -/
def textLines : List MdLine → List Char
  | [] => []
  | [l] => lineText l
  | l :: rest => lineText l ++ '\n' :: textLines rest

/-- An ordinary line does not itself begin with a heading marker: if it starts
with hash marks, some non-whitespace character follows them. -/
def headerFreeB (t : List Char) : Bool :=
  match t.head? with
  | some c =>
    if c = '#' then
      match t.dropWhile (fun c => c = '#') with
      | d :: _ => !(isPySpace d)
      | [] => false
    else true
  | none => true

/-- Well-formed line: single-line text; a heading marker's whitespace run is
non-empty horizontal whitespace and its heading text starts with a
non-whitespace character (otherwise the pattern's greedy `\s+` would also
absorb adjacent text whitespace or the line break); an ordinary line does not
begin with a marker. -/
def lineWfB : MdLine → Bool
  | MdLine.plain t => decide ('\n' ∉ t) && headerFreeB t
  | MdLine.header _ ws t =>
    decide ('\n' ∉ t) && !ws.isEmpty && ws.all (fun c => isPySpace c && !(c = '\n')) &&
      (match t with
       | d :: _ => !(isPySpace d)
       | [] => false)

/-- The branch condition of `generator.py` line 89: both section markers occur
in the cleaned completion text. -/
def sectionMarkersPresent (s : String) : Bool :=
  strContains s "HELPER_FUNCTIONS:" && strContains s "WORKFLOW_LOGIC:"

/-- Embedding of `generator.py` lines 86-96: split the cleaned response into
helper and workflow sections, falling back to a placeholder comment plus the
whole response when the markers are absent. -/
def parseSections (content : String) : String × String :=
  if sectionMarkersPresent content = true then
    let parts := splitOnSub ("WORKFLOW_LOGIC:".data) content.data
    (pyStripStr (String.mk (replaceRemove ("HELPER_FUNCTIONS:".data) (parts.headD []))),
     pyStripStr (String.mk (parts.tail.headD [])))
  else
    ("# No helper functions provided", pyStripStr content)

/-- `WORKFLOW_TEMPLATE` up to the description placeholder. -/
def TPL1 : String := "#!/usr/bin/env python3\n\"\"\""

/-- `WORKFLOW_TEMPLATE` between the description and helper placeholders. -/
def TPL2 : String := "\"\"\"\n\n"

/-- `WORKFLOW_TEMPLATE` between the helper and workflow-logic placeholders,
split into labelled pieces (concatenated in order by `TPL3`) so that concrete
facts about the scanner can be established piecewise. -/
def TPL3a : String := "\n\ndef setup_dependencies():"

/-- Template piece: docstring and imports of `setup_dependencies`. -/
def TPL3b : String := "\n    \"\"\"\n    Install any missing dependencies required by the workflow.\n    This function will attempt to install packages using pip.\n    \"\"\"\n    import subprocess\n    import sys\n"

/-- Template piece: the required-package list. -/
def TPL3c : String := "    # List your required packages here. The LLM should add any additional ones needed.\n    required_packages = [\n        \"requests\",\n        \"Pillow\",\n        \"beautifulsoup4\"\n    ]\n"

/-- Template piece: head of the install loop. -/
def TPL3d : String := "    for pkg in required_packages:\n        try:\n            # For packages with different import names, adjust accordingly (e.g., \x27beautifulsoup4\x27 vs. \x27bs4\x27)\n"

/-- Template piece: body of the install loop. -/
def TPL3e : String := "            if pkg == \"beautifulsoup4\":\n                __import__(\"bs4\")\n            else:\n                __import__(pkg)\n        except ImportError:\n            subprocess.check_call([sys.executable, \"-m\", \"pip\", \"install\", pkg])\n"

/-- Template piece: `main` up to the workflow-logic placeholder. -/
def TPL3f : String := "\ndef main():\n    # Ensure all dependencies are installed.\n    setup_dependencies()\n    # Initialize external artifacts if the function is provided.\n    if \x27init_artifacts\x27 in globals():\n        init_artifacts()\n    "

/-- `TPL3f` with its trailing whitespace removed. -/
def TPL3fR : String := "\ndef main():\n    # Ensure all dependencies are installed.\n    setup_dependencies()\n    # Initialize external artifacts if the function is provided.\n    if \x27init_artifacts\x27 in globals():\n        init_artifacts()"

/-- `WORKFLOW_TEMPLATE` between the helper and workflow-logic placeholders. -/
def TPL3 : String := TPL3a ++ TPL3b ++ TPL3c ++ TPL3d ++ TPL3e ++ TPL3f

/-- `WORKFLOW_TEMPLATE` after the workflow-logic placeholder (Jinja drops the
template's single trailing newline by default). -/
def TPL4 : String := "\n\nif __name__ == \x27__main__\x27:\n    main()"

/-- Embedding of `Template(WORKFLOW_TEMPLATE).render(...)`
(`generator.py` lines 99-104). -/
def renderTemplate (description helper_functions workflow_logic : String) : String :=
  TPL1 ++ description ++ TPL2 ++ helper_functions ++ TPL3 ++ workflow_logic ++ TPL4

/-- Embedding of Python `s.endswith(suffix)`. -/
def pyEndsWith (s suffix : String) : Bool := suffix.data.isSuffixOf s.data

/-- Embedding of `generator.py` lines 110-113: `workflow_<8 hex chars>.py` when
no (or an empty, hence falsy) name is supplied, otherwise the supplied name
with `.py` appended when missing. -/
def pyDeriveName (name : Option String) (uuidHex8 : String) : String :=
  match name with
  | none => "workflow_" ++ uuidHex8 ++ ".py"
  | some n =>
    if n = "" then "workflow_" ++ uuidHex8 ++ ".py"
    else if pyEndsWith n ".py" = true then n
    else n ++ ".py"

/-- Embedding of `os.path.join` for two components (POSIX rules). -/
def ospath_join (a b : String) : String :=
  if ("/".data.isPrefixOf b.data) = true then b
  else if a = "" then b
  else if pyEndsWith a "/" = true then a ++ b
  else a ++ "/" ++ b

/-- Embedding of `generate_workflow` (`generator.py` lines 59-125) with the
completion response and the uuid hex digits as explicit inputs.  Returns the
output file path and the text written to it; the source has no failure path
besides the unmodelled OS errors of `makedirs`/`open`. -/
def generate_workflow (description content output_dir : String) (name : Option String)
    (uuidHex8 : String) : String × String :=
  let cleaned := clean_generated_code content
  let sections := parseSections cleaned
  let code := clean_generated_code (renderTemplate description sections.1 sections.2)
  let fname := pyDeriveName name uuidHex8
  (ospath_join output_dir fname, code)

/-- Overwriting file write on a map-modelled filesystem. -/
def writeFile (fs : String → Option String) (p c : String) : String → Option String :=
  fun q => if q = p then some c else fs q

/-- `generate_workflow` together with its one file-write side effect. -/
def generate_workflow_fs (fs : String → Option String) (description content output_dir : String)
    (name : Option String) (uuidHex8 : String) : String × (String → Option String) :=
  let pc := generate_workflow description content output_dir name uuidHex8
  (pc.1, writeFile fs pc.1 pc.2)

/-- Embedding of Python `":" in mapping`. -/
def hasColon : List Char → Bool
  | [] => false
  | c :: cs => c = ':' || hasColon cs

/-- Observable outcome of `run_in_container` up to the spawn of the child
process: `FileNotFoundError`, `ValueError` on a mapping, or the spawned
command vector. -/
inductive RunnerOutcome where
  | fileNotFound : String → RunnerOutcome
  | invalidMapping : String → RunnerOutcome
  | spawn : List String → RunnerOutcome
deriving DecidableEq

/-- Embedding of the artifact loop of `runner.py` lines 41-45: raise
`ValueError` on the first mapping without a colon, otherwise collect one
`--artifacts <mapping>` pair per mapping in order. -/
def buildArtifactArgs : List String → Except String (List String)
  | [] => Except.ok []
  | m :: rest =>
    if hasColon m.data = true then
      match buildArtifactArgs rest with
      | Except.ok l => Except.ok ("--artifacts" :: m :: l)
      | Except.error e => Except.error e
    else Except.error m

/-- Embedding of `run_in_container` (`runner.py` lines 24-58) up to the spawn:
existence check, mapping validation, command construction.  `fsExists` models
`os.path.exists`, `sysExecutable` models `sys.executable`; the `container`
argument is accepted and unused, as in the source. -/
def run_in_container (fsExists : String → Bool) (sysExecutable container script_path : String)
    (script_args artifacts : List String) : RunnerOutcome :=
  if fsExists script_path = true then
    match buildArtifactArgs artifacts with
    | Except.error m => RunnerOutcome.invalidMapping ("Invalid artifact mapping format: " ++ m)
    | Except.ok artifact_args =>
      let cmd := [sysExecutable, script_path]
      let cmd2 := if script_args.isEmpty then cmd else cmd ++ script_args
      let cmd3 := if artifact_args.isEmpty then cmd2 else cmd2 ++ artifact_args
      RunnerOutcome.spawn cmd3
  else RunnerOutcome.fileNotFound ("Script not found: " ++ script_path)

/-- Embedding of `runner.py` lines 72-75: the `ContainerExecutionError` message
built from a non-zero exit code, with captured stderr appended when non-empty. -/
def containerErrorMsg (returncode : Int) (stderr : String) : String :=
  let base := "Container execution failed with exit code " ++ toString returncode
  if stderr = "" then base else base ++ "\nError output:\n" ++ stderr

/-- Embedding of the post-spawn handling (`runner.py` lines 57-77):
`subprocess.run(check=True)` raises exactly when the exit code is non-zero, and
the handler wraps that into `ContainerExecutionError` (modelled by its
message). -/
def handleProcessResult (returncode : Int) (stdout stderr : String) : Except String Unit :=
  if returncode = 0 then Except.ok () else Except.error (containerErrorMsg returncode stderr)

/-- Modelled from the spec: the spec-side validity notion for an artifact
mapping, "exactly two non-empty segments on the colon separator"; used only to
compare the claimed validation against the code's actual one.
`splitOnColon` is Python `str.split(":")`. -/
def splitOnColon : List Char → List (List Char)
  | [] => [[]]
  | c :: cs =>
    if c = ':' then [] :: splitOnColon cs
    else
      match splitOnColon cs with
      | [] => [[c]]
      | h :: t => (c :: h) :: t

/-- Modelled from the spec: a mapping is spec-valid when it splits into exactly
two non-empty segments on the colon. -/
def validMappingSpec (m : String) : Bool :=
  match splitOnColon m.data with
  | [a, b] => !a.isEmpty && !b.isEmpty
  | _ => false

/-- The flattened `--artifacts` pair list for a mapping list. -/
def artifactPairs : List String → List String
  | [] => []
  | m :: rest => "--artifacts" :: m :: artifactPairs rest

/-- The fixed description used in the fallback-rendering analysis of the
generator. -/
def FNKT_D0 : String := "Demo workflow"

/-- The rendered template from its start through the helper placeholder for
description `FNKT_D0` in the fallback branch. -/
def FNKT_P1 : String :=
  TPL1 ++ FNKT_D0 ++ TPL2 ++ "# No helper functions provided" ++ TPL3

/-- What the final cleaning pass makes of the rendered text up to and
including `def setup_dependencies():`: identical except that the fallback
placeholder has lost its `# ` comment marker. -/
def FNKT_PFX : String :=
  "#!/usr/bin/env python3\n\"\"\"Demo workflow\"\"\"\n\nNo helper functions provided\n\ndef setup_dependencies():"

/-- The rest of the template section `TPL3` after `def setup_dependencies():`. -/
def FNKT_A1 : String := TPL3b ++ TPL3c ++ TPL3d ++ TPL3e ++ TPL3f

/-- `FNKT_A1` with its trailing whitespace removed. -/
def FNKT_A1R : String := TPL3b ++ TPL3c ++ TPL3d ++ TPL3e ++ TPL3fR

/-! ## Helper lemmas -/

theorem scanRun_append {σ : Type} (step : σ → Char → σ × List Char) (a : List Char) :
    ∀ (st : σ) (b : List Char),
      scanRun step st (a ++ b) =
        ((scanRun step (scanRun step st a).1 b).1,
          (scanRun step st a).2 ++ (scanRun step (scanRun step st a).1 b).2) := by
  induction a with
  | nil => intro st b; simp [scanRun]
  | cons c cs ih =>
    intro st b
    simp only [List.cons_append, scanRun, List.append_eq]
    rw [ih]
    simp [List.append_assoc]

theorem sfRun_copy (l : List Char) (h : bq ∉ l) :
    scanRun sfStep FenceSt.f0 l = (FenceSt.f0, l) := by
  induction l with
  | nil => rfl
  | cons c cs ih =>
    have hc : c ≠ bq := fun e => h (e ▸ List.mem_cons_self c cs)
    have hcs : bq ∉ cs := fun m => h (List.mem_cons_of_mem _ m)
    simp [scanRun, sfStep, hc, ih hcs]

theorem subFences_of_no_bq (l : List Char) (h : bq ∉ l) : subFences l = l := by
  unfold subFences
  rw [sfRun_copy l h]
  simp [sfFlush]

theorem subFences_append_of_no_bq (a b : List Char) (h : bq ∉ a) :
    subFences (a ++ b) = a ++ subFences b := by
  unfold subFences
  rw [scanRun_append, sfRun_copy a h]
  simp [List.append_assoc]

theorem shRun_copy (l : List Char) : ∀ st : SH, (st = SH.start ∨ st = SH.normal) → '#' ∉ l →
    (scanRun shStep st l).2 = l ∧
      ((scanRun shStep st l).1 = SH.start ∨ (scanRun shStep st l).1 = SH.normal) := by
  induction l with
  | nil => intro st hst _; exact ⟨rfl, hst⟩
  | cons c cs ih =>
    intro st hst h
    have hc : c ≠ '#' := fun e => h (e ▸ List.mem_cons_self c cs)
    have hcs : '#' ∉ cs := fun m => h (List.mem_cons_of_mem _ m)
    have hstep : shStep st c = (if c = '\n' then SH.start else SH.normal, [c]) := by
      rcases hst with h1 | h1 <;> subst h1 <;> simp [shStep, hc]
    have hnice : (if c = '\n' then SH.start else SH.normal) = SH.start ∨
        (if c = '\n' then SH.start else SH.normal) = SH.normal := by
      by_cases hnl : c = '\n' <;> simp [hnl]
    obtain ⟨ih1, ih2⟩ := ih _ hnice hcs
    constructor
    · simp [scanRun, hstep, ih1]
    · simpa [scanRun, hstep] using ih2

theorem stripHeaders_of_no_hash (l : List Char) (h : '#' ∉ l) : stripHeaders l = l := by
  obtain ⟨h1, h2⟩ := shRun_copy l SH.start (Or.inl rfl) h
  unfold stripHeaders
  rcases h2 with h2 | h2 <;> rw [h1, h2] <;> simp [shFlush]

theorem clean_eq_strip_of_plain (s : String) (h1 : '#' ∉ s.data) (h2 : bq ∉ s.data) :
    clean_generated_code s = pyStripStr s := by
  unfold clean_generated_code pyStripStr
  rw [subFences_of_no_bq _ h2, stripHeaders_of_no_hash _ h1]

theorem subFences_fence_python (s : List Char) :
    subFences ("```python".data ++ s) = subFences s := by
  unfold subFences
  rw [scanRun_append]
  have h0 : scanRun sfStep FenceSt.f0 ("```python".data) = (FenceSt.f0, []) := by decide
  rw [h0]
  simp

theorem stripHeaders_hash_space (s : List Char) (h1 : '#' ∉ s)
    (h3 : ∀ c, s.head? = some c → isPySpace c = false) :
    stripHeaders ('#' :: ' ' :: s) = s := by
  cases s with
  | nil => decide
  | cons c cs =>
    have hc := h3 c rfl
    have hc2 : c ≠ '#' := fun e => h1 (e ▸ List.mem_cons_self c cs)
    have hcs : '#' ∉ cs := fun m => h1 (List.mem_cons_of_mem _ m)
    have hstep1 : scanRun shStep SH.start ('#' :: ' ' :: c :: cs) =
        scanRun shStep (SH.wsEat false) (c :: cs) := by
      simp [scanRun, shStep, isPySpace]
    have hstep2 : shStep (SH.wsEat false) c = (SH.normal, [c]) := by
      simp [shStep, hc, hc2]
    obtain ⟨r1, r2⟩ := shRun_copy cs SH.normal (Or.inr rfl) hcs
    unfold stripHeaders
    rw [hstep1]
    rcases r2 with r2 | r2 <;> simp [scanRun, hstep2, r1, r2, shFlush]

theorem dropWhile_append' {α : Type} (p : α → Bool) (u v : List α) :
    (u ++ v).dropWhile p =
      if (u.dropWhile p).isEmpty then v.dropWhile p else u.dropWhile p ++ v := by
  induction u with
  | nil => simp
  | cons a u ih =>
    by_cases h : p a
    · simpa [List.dropWhile_cons_of_pos h] using ih
    · simp [List.dropWhile_cons_of_neg h, h]

theorem ifEmpty_append {α : Type} (c l : List α) :
    (if l.isEmpty then c else c ++ l) = c ++ l := by
  cases l <;> simp

theorem buildArtifactArgs_spec (arts : List String) :
    buildArtifactArgs arts =
      match arts.find? (fun m => !(hasColon m.data)) with
      | some m => Except.error m
      | none => Except.ok (artifactPairs arts) := by
  induction arts with
  | nil => rfl
  | cons m rest ih =>
    by_cases hm : hasColon m.data = true
    · rw [List.find?_cons_of_neg _ (by simp [hm])]
      rw [buildArtifactArgs, if_pos hm, ih]
      cases hfind : rest.find? (fun m => !(hasColon m.data)) <;> simp [hfind, artifactPairs]
    · rw [List.find?_cons_of_pos _ (by simpa using hm)]
      rw [buildArtifactArgs, if_neg hm]

theorem run_in_container_spec (fsExists : String → Bool) (exe container s : String)
    (args arts : List String) (h : fsExists s = true) :
    run_in_container fsExists exe container s args arts =
      match arts.find? (fun m => !(hasColon m.data)) with
      | some m => RunnerOutcome.invalidMapping ("Invalid artifact mapping format: " ++ m)
      | none => RunnerOutcome.spawn ([exe, s] ++ args ++ artifactPairs arts) := by
  unfold run_in_container
  rw [if_pos h, buildArtifactArgs_spec]
  cases hfind : arts.find? (fun m => !(hasColon m.data)) with
  | some m => simp
  | none => cases args <;> cases hA : artifactPairs arts <;> simp_all [List.append_assoc]

theorem splitOnColon_ne_nil (l : List Char) : splitOnColon l ≠ [] := by
  cases l with
  | nil => simp [splitOnColon]
  | cons c cs =>
    by_cases hc : c = ':'
    · simp [splitOnColon, hc]
    · cases h : splitOnColon cs <;> simp [splitOnColon, hc, h]

theorem splitOnColon_two_hasColon (l : List Char) (h : 2 ≤ (splitOnColon l).length) :
    hasColon l = true := by
  induction l with
  | nil => simp [splitOnColon] at h
  | cons c cs ih =>
    by_cases hc : c = ':'
    · simp [hasColon, hc]
    · have hne := splitOnColon_ne_nil cs
      cases hsp : splitOnColon cs with
      | nil => exact absurd hsp hne
      | cons h0 t =>
        rw [splitOnColon, if_neg hc, hsp] at h
        simp only [List.length_cons] at h
        have : 2 ≤ (splitOnColon cs).length := by rw [hsp]; simpa using h
        simp [hasColon, hc, ih this]

theorem validMappingSpec_hasColon (m : String) (h : validMappingSpec m = true) :
    hasColon m.data = true := by
  apply splitOnColon_two_hasColon
  unfold validMappingSpec at h
  rcases hsp : splitOnColon m.data with _ | ⟨a, _ | ⟨b, _ | ⟨x, t⟩⟩⟩ <;> rw [hsp] at h <;>
    simp_all

theorem isPrefixOf_append_self (u w : List Char) : u.isPrefixOf (u ++ w) = true := by
  induction u with
  | nil => simp [List.isPrefixOf]
  | cons c cs ih => simp [List.isPrefixOf, ih]

theorem isSuffixOf_append_self (u w : List Char) : u.isSuffixOf (w ++ u) = true := by
  unfold List.isSuffixOf
  rw [List.reverse_append]
  exact isPrefixOf_append_self u.reverse w.reverse

theorem pyEndsWith_append_py (s : String) : pyEndsWith (s ++ ".py") ".py" = true := by
  unfold pyEndsWith
  rw [String.data_append]
  exact isSuffixOf_append_self _ _

theorem dropWhile_eq_self_of_head {α : Type} (p : α → Bool) (l : List α) (c : α)
    (h : l.head? = some c) (hc : p c = false) : l.dropWhile p = l := by
  cases l with
  | nil => simp at h
  | cons a as =>
    simp only [List.head?_cons, Option.some.injEq] at h
    subst h
    exact List.dropWhile_cons_of_neg (by simp [hc])

theorem isEmpty_false_of_head {α : Type} (l : List α) (c : α) (h : l.head? = some c) :
    l.isEmpty = false := by
  cases l with
  | nil => simp at h
  | cons a as => rfl

theorem scanRun_comp {σ : Type} (step : σ → Char → σ × List Char) {st1 st2 st3 : σ}
    {a b out1 out2 : List Char}
    (ha : scanRun step st1 a = (st2, out1)) (hb : scanRun step st2 b = (st3, out2)) :
    scanRun step st1 (a ++ b) = (st3, out1 ++ out2) := by
  rw [scanRun_append, ha]
  simp [hb]

set_option maxRecDepth 4000 in
theorem shRun_head : scanRun shStep SH.start (TPL1 ++ FNKT_D0 ++ TPL2).data =
    (SH.start, (TPL1 ++ FNKT_D0 ++ TPL2).data) := by decide

set_option maxRecDepth 4000 in
theorem shRun_helperline : scanRun shStep SH.start ("# No helper functions provided").data =
    (SH.normal, ("No helper functions provided").data) := by decide

set_option maxRecDepth 4000 in
theorem shRun_t3a : scanRun shStep SH.normal TPL3a.data = (SH.normal, TPL3a.data) := by decide

set_option maxRecDepth 4000 in
theorem shRun_t3b : scanRun shStep SH.normal TPL3b.data = (SH.start, TPL3b.data) := by decide

set_option maxRecDepth 4000 in
theorem shRun_t3c : scanRun shStep SH.start TPL3c.data = (SH.start, TPL3c.data) := by decide

set_option maxRecDepth 4000 in
theorem shRun_t3d : scanRun shStep SH.start TPL3d.data = (SH.start, TPL3d.data) := by decide

set_option maxRecDepth 4000 in
theorem shRun_t3e : scanRun shStep SH.start TPL3e.data = (SH.start, TPL3e.data) := by decide

set_option maxRecDepth 4000 in
theorem shRun_t3f : scanRun shStep SH.start TPL3f.data = (SH.normal, TPL3f.data) := by decide

set_option maxRecDepth 4000 in
theorem pfx_data_eq : FNKT_PFX.data =
    (TPL1 ++ FNKT_D0 ++ TPL2).data ++ (("No helper functions provided").data ++ TPL3a.data) := by
  decide

set_option maxRecDepth 4000 in
theorem no_bq_P1 : bq ∉ FNKT_P1.data := by
  have h : FNKT_P1.data = (TPL1 ++ FNKT_D0 ++ TPL2).data ++
      (("# No helper functions provided").data ++ (TPL3a.data ++ (TPL3b.data ++ (TPL3c.data ++
        (TPL3d.data ++ (TPL3e.data ++ TPL3f.data)))))) := by
    simp [FNKT_P1, TPL3, String.data_append, List.append_assoc]
  rw [h]
  intro hm
  simp only [List.mem_append] at hm
  rcases hm with h1 | h1 | h1 | h1 | h1 | h1 | h1 | h1 <;> revert h1 <;> decide

theorem shRun_P1 :
    scanRun shStep SH.start FNKT_P1.data = (SH.normal, (FNKT_PFX ++ FNKT_A1).data) := by
  have hsplit : FNKT_P1.data = (TPL1 ++ FNKT_D0 ++ TPL2).data ++
      (("# No helper functions provided").data ++ (TPL3a.data ++ (TPL3b.data ++ (TPL3c.data ++
        (TPL3d.data ++ (TPL3e.data ++ TPL3f.data)))))) := by
    simp [FNKT_P1, TPL3, String.data_append, List.append_assoc]
  have h3 := scanRun_comp shStep shRun_t3e shRun_t3f
  have h4 := scanRun_comp shStep shRun_t3d h3
  have h5 := scanRun_comp shStep shRun_t3c h4
  have h6 := scanRun_comp shStep shRun_t3b h5
  have h7 := scanRun_comp shStep shRun_t3a h6
  have h8 := scanRun_comp shStep shRun_helperline h7
  have h9 := scanRun_comp shStep shRun_head h8
  rw [hsplit, h9]
  simp [pfx_data_eq, FNKT_A1, String.data_append, List.append_assoc]

theorem D_head : ((FNKT_PFX ++ FNKT_A1).data).head? = some '#' := by
  rw [String.data_append, pfx_data_eq]
  rfl

theorem dropWhile_D :
    List.dropWhile isPySpace (FNKT_PFX ++ FNKT_A1).data = (FNKT_PFX ++ FNKT_A1).data :=
  dropWhile_eq_self_of_head _ _ '#' D_head (by decide)

theorem D_not_empty : ((FNKT_PFX ++ FNKT_A1).data).isEmpty = false :=
  isEmpty_false_of_head _ '#' D_head

set_option maxRecDepth 4000 in
theorem dropWhile_t3f_rev :
    List.dropWhile isPySpace (TPL3f.data.reverse) = TPL3fR.data.reverse := by decide

set_option maxRecDepth 4000 in
theorem t3fR_rev_not_empty : (TPL3fR.data.reverse).isEmpty = false := by decide

theorem dropWhile_D_rev :
    List.dropWhile isPySpace ((FNKT_PFX ++ FNKT_A1).data.reverse) =
      (FNKT_PFX ++ FNKT_A1R).data.reverse := by
  have hsplit : (FNKT_PFX ++ FNKT_A1).data.reverse =
      TPL3f.data.reverse ++ (TPL3e.data.reverse ++ (TPL3d.data.reverse ++
        (TPL3c.data.reverse ++ (TPL3b.data.reverse ++ FNKT_PFX.data.reverse)))) := by
    simp [FNKT_A1, String.data_append, List.reverse_append, List.append_assoc]
  rw [hsplit, dropWhile_append', dropWhile_t3f_rev]
  rw [if_neg (by rw [t3fR_rev_not_empty]; simp)]
  simp [FNKT_A1R, String.data_append, List.reverse_append, List.append_assoc]

theorem pyStrip_prefix_decomp (rest : List Char) :
    ∃ suf : List Char,
      pyStrip ((FNKT_PFX ++ FNKT_A1).data ++ rest) = FNKT_PFX.data ++ suf := by
  unfold pyStrip
  have hD : List.dropWhile isPySpace ((FNKT_PFX ++ FNKT_A1).data ++ rest) =
      (FNKT_PFX ++ FNKT_A1).data ++ rest := by
    rw [dropWhile_append', dropWhile_D, D_not_empty]
    simp
  rw [hD, List.reverse_append, dropWhile_append']
  by_cases hcase : (List.dropWhile isPySpace rest.reverse).isEmpty = true
  · rw [if_pos hcase, dropWhile_D_rev]
    refine ⟨FNKT_A1R.data, ?_⟩
    rw [List.reverse_reverse, String.data_append]
  · rw [if_neg hcase]
    refine ⟨FNKT_A1.data ++ (List.dropWhile isPySpace rest.reverse).reverse, ?_⟩
    rw [List.reverse_append, List.reverse_reverse, String.data_append]
    simp [List.append_assoc]

theorem subFences_eq_sfOut (l : List Char) : subFences l = sfOut FenceSt.f0 l := rfl

theorem sfOut_nil (st : FenceSt) : sfOut st [] = sfFlush st := by
  simp [sfOut, scanRun]

theorem sfOut_cons (st : FenceSt) (c : Char) (cs : List Char) :
    sfOut st (c :: cs) = (sfStep st c).2 ++ sfOut (sfStep st c).1 cs := by
  simp [sfOut, scanRun, List.append_assoc]

theorem sfOut_py5 (l : List Char) (h : (pyRest 5).isPrefixOf l = false) :
    sfOut (FenceSt.py 5) l = pyPre 5 ++ sfOut FenceSt.f0 l := by
  cases l with
  | nil => simp [sfOut, scanRun, sfFlush]
  | cons c cs =>
    have hc : ¬ c = 'n' := by
      intro e
      subst e
      simp [pyRest, List.isPrefixOf] at h
    by_cases hbq : c = bq
    · subst hbq
      have hs1 : sfStep (FenceSt.py 5) bq = (FenceSt.b1, pyPre 5) := by decide
      have hs2 : sfStep FenceSt.f0 bq = (FenceSt.b1, []) := by decide
      rw [sfOut_cons, hs1, sfOut_cons, hs2]
      simp
    · have hs1 : sfStep (FenceSt.py 5) c = (FenceSt.f0, pyPre 5 ++ [c]) := by
        simp [sfStep, pyChar, hc, hbq]
      have hs2 : sfStep FenceSt.f0 c = (FenceSt.f0, [c]) := by
        simp [sfStep, hbq]
      rw [sfOut_cons, hs1, sfOut_cons, hs2]
      simp

theorem sfOut_py4 (l : List Char) (h : (pyRest 4).isPrefixOf l = false) :
    sfOut (FenceSt.py 4) l = pyPre 4 ++ sfOut FenceSt.f0 l := by
  cases l with
  | nil => simp [sfOut, scanRun, sfFlush]
  | cons c cs =>
    by_cases hc : c = 'o'
    · subst hc
      have h' : (pyRest 5).isPrefixOf cs = false := by
        simpa [pyRest, List.isPrefixOf] using h
      have hs1 : sfStep (FenceSt.py 4) 'o' = (FenceSt.py 5, []) := by decide
      have hs2 : sfStep FenceSt.f0 'o' = (FenceSt.f0, ['o']) := by decide
      rw [sfOut_cons, hs1, sfOut_cons, hs2, sfOut_py5 cs h']
      have hp : pyPre 5 = pyPre 4 ++ ['o'] := rfl
      rw [hp]
      simp
    · by_cases hbq : c = bq
      · subst hbq
        have hs1 : sfStep (FenceSt.py 4) bq = (FenceSt.b1, pyPre 4) := by decide
        have hs2 : sfStep FenceSt.f0 bq = (FenceSt.b1, []) := by decide
        rw [sfOut_cons, hs1, sfOut_cons, hs2]
        simp
      · have hs1 : sfStep (FenceSt.py 4) c = (FenceSt.f0, pyPre 4 ++ [c]) := by
          simp [sfStep, pyChar, hc, hbq]
        have hs2 : sfStep FenceSt.f0 c = (FenceSt.f0, [c]) := by
          simp [sfStep, hbq]
        rw [sfOut_cons, hs1, sfOut_cons, hs2]
        simp

theorem sfOut_py3 (l : List Char) (h : (pyRest 3).isPrefixOf l = false) :
    sfOut (FenceSt.py 3) l = pyPre 3 ++ sfOut FenceSt.f0 l := by
  cases l with
  | nil => simp [sfOut, scanRun, sfFlush]
  | cons c cs =>
    by_cases hc : c = 'h'
    · subst hc
      have h' : (pyRest 4).isPrefixOf cs = false := by
        simpa [pyRest, List.isPrefixOf] using h
      have hs1 : sfStep (FenceSt.py 3) 'h' = (FenceSt.py 4, []) := by decide
      have hs2 : sfStep FenceSt.f0 'h' = (FenceSt.f0, ['h']) := by decide
      rw [sfOut_cons, hs1, sfOut_cons, hs2, sfOut_py4 cs h']
      have hp : pyPre 4 = pyPre 3 ++ ['h'] := rfl
      rw [hp]
      simp
    · by_cases hbq : c = bq
      · subst hbq
        have hs1 : sfStep (FenceSt.py 3) bq = (FenceSt.b1, pyPre 3) := by decide
        have hs2 : sfStep FenceSt.f0 bq = (FenceSt.b1, []) := by decide
        rw [sfOut_cons, hs1, sfOut_cons, hs2]
        simp
      · have hs1 : sfStep (FenceSt.py 3) c = (FenceSt.f0, pyPre 3 ++ [c]) := by
          simp [sfStep, pyChar, hc, hbq]
        have hs2 : sfStep FenceSt.f0 c = (FenceSt.f0, [c]) := by
          simp [sfStep, hbq]
        rw [sfOut_cons, hs1, sfOut_cons, hs2]
        simp

theorem sfOut_py2 (l : List Char) (h : (pyRest 2).isPrefixOf l = false) :
    sfOut (FenceSt.py 2) l = pyPre 2 ++ sfOut FenceSt.f0 l := by
  cases l with
  | nil => simp [sfOut, scanRun, sfFlush]
  | cons c cs =>
    by_cases hc : c = 't'
    · subst hc
      have h' : (pyRest 3).isPrefixOf cs = false := by
        simpa [pyRest, List.isPrefixOf] using h
      have hs1 : sfStep (FenceSt.py 2) 't' = (FenceSt.py 3, []) := by decide
      have hs2 : sfStep FenceSt.f0 't' = (FenceSt.f0, ['t']) := by decide
      rw [sfOut_cons, hs1, sfOut_cons, hs2, sfOut_py3 cs h']
      have hp : pyPre 3 = pyPre 2 ++ ['t'] := rfl
      rw [hp]
      simp
    · by_cases hbq : c = bq
      · subst hbq
        have hs1 : sfStep (FenceSt.py 2) bq = (FenceSt.b1, pyPre 2) := by decide
        have hs2 : sfStep FenceSt.f0 bq = (FenceSt.b1, []) := by decide
        rw [sfOut_cons, hs1, sfOut_cons, hs2]
        simp
      · have hs1 : sfStep (FenceSt.py 2) c = (FenceSt.f0, pyPre 2 ++ [c]) := by
          simp [sfStep, pyChar, hc, hbq]
        have hs2 : sfStep FenceSt.f0 c = (FenceSt.f0, [c]) := by
          simp [sfStep, hbq]
        rw [sfOut_cons, hs1, sfOut_cons, hs2]
        simp

theorem sfOut_py1 (l : List Char) (h : (pyRest 1).isPrefixOf l = false) :
    sfOut (FenceSt.py 1) l = pyPre 1 ++ sfOut FenceSt.f0 l := by
  cases l with
  | nil => simp [sfOut, scanRun, sfFlush]
  | cons c cs =>
    by_cases hc : c = 'y'
    · subst hc
      have h' : (pyRest 2).isPrefixOf cs = false := by
        simpa [pyRest, List.isPrefixOf] using h
      have hs1 : sfStep (FenceSt.py 1) 'y' = (FenceSt.py 2, []) := by decide
      have hs2 : sfStep FenceSt.f0 'y' = (FenceSt.f0, ['y']) := by decide
      rw [sfOut_cons, hs1, sfOut_cons, hs2, sfOut_py2 cs h']
      have hp : pyPre 2 = pyPre 1 ++ ['y'] := rfl
      rw [hp]
      simp
    · by_cases hbq : c = bq
      · subst hbq
        have hs1 : sfStep (FenceSt.py 1) bq = (FenceSt.b1, pyPre 1) := by decide
        have hs2 : sfStep FenceSt.f0 bq = (FenceSt.b1, []) := by decide
        rw [sfOut_cons, hs1, sfOut_cons, hs2]
        simp
      · have hs1 : sfStep (FenceSt.py 1) c = (FenceSt.f0, pyPre 1 ++ [c]) := by
          simp [sfStep, pyChar, hc, hbq]
        have hs2 : sfStep FenceSt.f0 c = (FenceSt.f0, [c]) := by
          simp [sfStep, hbq]
        rw [sfOut_cons, hs1, sfOut_cons, hs2]
        simp

theorem sfOut_py0 (l : List Char) (h : (pyRest 0).isPrefixOf l = false) :
    sfOut (FenceSt.py 0) l = sfOut FenceSt.f0 l := by
  cases l with
  | nil => simp [sfOut, scanRun, sfFlush, pyPre]
  | cons c cs =>
    by_cases hc : c = 'p'
    · subst hc
      have h' : (pyRest 1).isPrefixOf cs = false := by
        simpa [pyRest, List.isPrefixOf] using h
      have hs1 : sfStep (FenceSt.py 0) 'p' = (FenceSt.py 1, []) := by decide
      have hs2 : sfStep FenceSt.f0 'p' = (FenceSt.f0, ['p']) := by decide
      rw [sfOut_cons, hs1, sfOut_cons, hs2, sfOut_py1 cs h']
      have hp : pyPre 1 = ['p'] := rfl
      rw [hp]
      simp
    · by_cases hbq : c = bq
      · subst hbq
        have hs1 : sfStep (FenceSt.py 0) bq = (FenceSt.b1, []) := by decide
        have hs2 : sfStep FenceSt.f0 bq = (FenceSt.b1, []) := by decide
        rw [sfOut_cons, hs1, sfOut_cons, hs2]
      · have hs1 : sfStep (FenceSt.py 0) c = (FenceSt.f0, [c]) := by
          simp [sfStep, pyChar, hc, hbq, pyPre]
        have hs2 : sfStep FenceSt.f0 c = (FenceSt.f0, [c]) := by
          simp [sfStep, hbq]
        rw [sfOut_cons, hs1, sfOut_cons, hs2]

theorem subFences_fence (l : List Char) (h : (pyRest 0).isPrefixOf l = false) :
    subFences (bq :: bq :: bq :: l) = subFences l := by
  have e1 : sfStep FenceSt.f0 bq = (FenceSt.b1, []) := by decide
  have e2 : sfStep FenceSt.b1 bq = (FenceSt.b2, []) := by decide
  have e3 : sfStep FenceSt.b2 bq = (FenceSt.py 0, []) := by decide
  rw [subFences_eq_sfOut, subFences_eq_sfOut, sfOut_cons, e1, sfOut_cons, e2, sfOut_cons, e3,
    sfOut_py0 l h]
  simp

theorem subFences_fencePy (l : List Char) :
    subFences (bq :: bq :: bq :: 'p' :: 'y' :: 't' :: 'h' :: 'o' :: 'n' :: l) = subFences l := by
  have h0 : scanRun sfStep FenceSt.f0 [bq, bq, bq, 'p', 'y', 't', 'h', 'o', 'n'] =
      (FenceSt.f0, []) := by decide
  have he : bq :: bq :: bq :: 'p' :: 'y' :: 't' :: 'h' :: 'o' :: 'n' :: l =
      [bq, bq, bq, 'p', 'y', 't', 'h', 'o', 'n'] ++ l := rfl
  unfold subFences
  rw [he, scanRun_append, h0]
  simp

theorem subFences_tokens (toks : List MdTok) (h : mdWfB toks = true) :
    subFences (renderToks toks) = textOf toks := by
  induction toks with
  | nil => rfl
  | cons tk rest ih =>
    cases tk with
    | fence =>
      simp only [mdWfB, Bool.and_eq_true, Bool.not_eq_true'] at h
      obtain ⟨h1, h2⟩ := h
      simp only [renderToks, textOf]
      rw [subFences_fence _ h1]
      exact ih h2
    | fencePy =>
      have h2 : mdWfB rest = true := h
      simp only [renderToks, textOf]
      rw [subFences_fencePy]
      exact ih h2
    | text t =>
      simp only [mdWfB, Bool.and_eq_true, decide_eq_true_eq] at h
      obtain ⟨h1, h2⟩ := h
      simp only [renderToks, textOf]
      rw [subFences_append_of_no_bq _ _ h1, ih h2]

theorem dropWhile_head_not {α : Type} (p : α → Bool) (l : List α) (d : α) (r : List α)
    (h : l.dropWhile p = d :: r) : p d = false := by
  induction l with
  | nil => simp at h
  | cons a as ih =>
    by_cases ha : p a
    · rw [List.dropWhile_cons_of_pos ha] at h
      exact ih h
    · rw [List.dropWhile_cons_of_neg ha] at h
      injection h with h1 _
      rw [← h1]
      simpa using ha

theorem scan_normal_line (t : List Char) (h : '\n' ∉ t) :
    scanRun shStep SH.normal t = (SH.normal, t) := by
  induction t with
  | nil => rfl
  | cons c cs ih =>
    have hc : c ≠ '\n' := fun e => h (e ▸ List.mem_cons_self c cs)
    have hcs : '\n' ∉ cs := fun m => h (List.mem_cons_of_mem _ m)
    simp [scanRun, shStep, hc, ih hcs]

theorem scan_hash_run (m : Nat) : ∀ (k : Nat) (rest : List Char),
    scanRun shStep (SH.hashes k) (List.replicate m '#' ++ rest) =
      scanRun shStep (SH.hashes (k + m)) rest := by
  induction m with
  | zero => intro k rest; simp
  | succ m ih =>
    intro k rest
    have hrep : List.replicate (m + 1) '#' = '#' :: List.replicate m '#' := rfl
    have hstep : shStep (SH.hashes k) '#' = (SH.hashes (k + 1), []) := by simp [shStep]
    rw [hrep]
    simp only [List.cons_append, scanRun, hstep, List.append_eq]
    rw [ih (k + 1) rest]
    have he : k + 1 + m = k + (m + 1) := by omega
    rw [he]
    simp

theorem scan_wsrun : ∀ (ws : List Char),
    ws.all (fun c => isPySpace c && !(c = '\n')) = true →
    ∀ rest, scanRun shStep (SH.wsEat false) (ws ++ rest) =
      scanRun shStep (SH.wsEat false) rest := by
  intro ws
  induction ws with
  | nil => intro _ rest; simp
  | cons c cs ih =>
    intro h rest
    simp only [List.all_cons, Bool.and_eq_true, Bool.not_eq_true'] at h
    obtain ⟨⟨h1, h2⟩, h3⟩ := h
    have hc : ¬ c = '\n' := by simpa using h2
    have hstep : shStep (SH.wsEat false) c = (SH.wsEat false, []) := by
      simp [shStep, h1, hc]
    simp only [List.cons_append, scanRun, hstep, List.append_eq]
    rw [ih h3 rest]
    simp

theorem line_scan (l : MdLine) (h : lineWfB l = true) :
    ∃ st, scanRun shStep SH.start (renderLine l) = (st, lineText l) ∧
      (st = SH.start ∨ st = SH.normal) := by
  cases l with
  | plain t =>
    simp only [lineWfB, Bool.and_eq_true, decide_eq_true_eq] at h
    obtain ⟨hnl, hhf⟩ := h
    cases t with
    | nil => exact ⟨SH.start, rfl, Or.inl rfl⟩
    | cons c cs =>
      by_cases hc : c = '#'
      · subst hc
        rcases hdw : ('#' :: cs).dropWhile (fun c => c = '#') with _ | ⟨d, r⟩
        · simp [headerFreeB, hdw] at hhf
        · have hd : isPySpace d = false := by
            simpa [headerFreeB, hdw] using hhf
          have hd2 : ¬ d = '#' := by
            simpa using dropWhile_head_not (fun c => c = '#') ('#' :: cs) d r hdw
          have hnr : '\n' ∉ r := by
            intro hm
            apply hnl
            have hsuffix : d :: r <:+ ('#' :: cs) := hdw ▸ List.dropWhile_suffix _
            exact hsuffix.subset (List.mem_cons_of_mem _ hm)
          have hrep : cs.takeWhile (fun c => c = '#') =
              List.replicate (cs.takeWhile (fun c => c = '#')).length '#' := by
            apply List.eq_replicate_of_mem
            intro b hb
            simpa using List.mem_takeWhile_imp hb
          have htw : ('#' :: cs).takeWhile (fun c => c = '#') =
              '#' :: cs.takeWhile (fun c => c = '#') := by
            simp [List.takeWhile_cons_of_pos]
          have hT : '#' :: cs =
              '#' :: (List.replicate (cs.takeWhile (fun c => c = '#')).length '#' ++ (d :: r)) := by
            conv_lhs => rw [← List.takeWhile_append_dropWhile (p := fun c => c = '#')
              (l := '#' :: cs), htw, hdw, hrep]
            simp
          have hstep0 : shStep SH.start '#' = (SH.hashes 1, []) := by simp [shStep]
          have hstepd : shStep (SH.hashes (1 + (cs.takeWhile (fun c => c = '#')).length)) d =
              (SH.normal,
                List.replicate (1 + (cs.takeWhile (fun c => c = '#')).length) '#' ++ [d]) := by
            simp [shStep, hd2, hd]
          refine ⟨SH.normal, ?_, Or.inr rfl⟩
          show scanRun shStep SH.start ('#' :: cs) = (SH.normal, '#' :: cs)
          conv_lhs => rw [hT]
          simp only [scanRun, hstep0]
          rw [scan_hash_run _ 1 (d :: r)]
          simp only [scanRun, hstepd]
          rw [scan_normal_line r hnr]
          conv_rhs => rw [hT]
          have hrep1 : List.replicate (1 + (cs.takeWhile (fun c => c = '#')).length) '#' =
              '#' :: List.replicate (cs.takeWhile (fun c => c = '#')).length '#' := by
            rw [Nat.add_comm]
            rfl
          rw [hrep1]
          simp
      · have hc' : ¬ c = '\n' := fun e => hnl (e ▸ List.mem_cons_self c cs)
        have hstep : shStep SH.start c = (SH.normal, [c]) := by simp [shStep, hc, hc']
        have hcs : '\n' ∉ cs := fun m => hnl (List.mem_cons_of_mem _ m)
        refine ⟨SH.normal, ?_, Or.inr rfl⟩
        show scanRun shStep SH.start (c :: cs) = (SH.normal, c :: cs)
        simp only [scanRun, hstep]
        rw [scan_normal_line cs hcs]
        simp
  | header n ws t =>
    simp only [lineWfB, Bool.and_eq_true, decide_eq_true_eq] at h
    obtain ⟨⟨⟨hnl, hwse⟩, hwall⟩, hT⟩ := h
    rcases t with _ | ⟨d, r⟩
    · simp at hT
    · have hd : isPySpace d = false := by simpa using hT
      have hnr : '\n' ∉ r := fun m => hnl (List.mem_cons_of_mem _ m)
      rcases ws with _ | ⟨w, ws'⟩
      · simp at hwse
      · simp only [List.all_cons, Bool.and_eq_true, Bool.not_eq_true'] at hwall
        obtain ⟨⟨hw1, hw2⟩, hw3⟩ := hwall
        have hwnl : ¬ w = '\n' := by simpa using hw2
        have hwh : ¬ w = '#' := by
          intro e
          subst e
          simp [isPySpace] at hw1
        have hstep0 : shStep SH.start '#' = (SH.hashes 1, []) := by simp [shStep]
        have hstepw : shStep (SH.hashes (1 + n)) w = (SH.wsEat false, []) := by
          simp [shStep, hwh, hw1, hwnl]
        have hstepd : shStep (SH.wsEat false) d = (SH.normal, [d]) := by
          simp [shStep, hd]
        refine ⟨SH.normal, ?_, Or.inr rfl⟩
        show scanRun shStep SH.start
            (List.replicate (n + 1) '#' ++ (w :: ws') ++ (d :: r)) = (SH.normal, d :: r)
        have hra : List.replicate (n + 1) '#' ++ (w :: ws') ++ (d :: r) =
            '#' :: (List.replicate n '#' ++ (w :: (ws' ++ (d :: r)))) := by
          have : List.replicate (n + 1) '#' = '#' :: List.replicate n '#' := rfl
          rw [this]
          simp [List.append_assoc]
        rw [hra]
        simp only [scanRun, hstep0]
        rw [scan_hash_run n 1 (w :: (ws' ++ (d :: r)))]
        simp only [scanRun, hstepw]
        rw [scan_wsrun ws' hw3 (d :: r)]
        simp only [scanRun, hstepd]
        rw [scan_normal_line r hnr]
        simp

theorem lines_scan : ∀ (ls : List MdLine), ls.all lineWfB = true →
    ∃ st, scanRun shStep SH.start (renderLines ls) = (st, textLines ls) ∧
      (st = SH.start ∨ st = SH.normal) := by
  intro ls
  induction ls with
  | nil => intro _; exact ⟨SH.start, rfl, Or.inl rfl⟩
  | cons l rest ih =>
    intro h
    simp only [List.all_cons, Bool.and_eq_true] at h
    obtain ⟨h1, h2⟩ := h
    cases rest with
    | nil => simpa [renderLines, textLines] using line_scan l h1
    | cons l2 rest2 =>
      obtain ⟨st1, hscan, hst1⟩ := line_scan l h1
      obtain ⟨st2, hscan2, hst2⟩ := ih (by simpa using h2)
      have hstepnl : shStep st1 '\n' = (SH.start, ['\n']) := by
        rcases hst1 with rfl | rfl <;> simp [shStep]
      refine ⟨st2, ?_, hst2⟩
      show scanRun shStep SH.start (renderLine l ++ '\n' :: renderLines (l2 :: rest2)) =
          (st2, lineText l ++ '\n' :: textLines (l2 :: rest2))
      rw [scanRun_append, hscan]
      simp only [scanRun, hstepnl]
      rw [hscan2]
      simp

theorem stripHeaders_lines (ls : List MdLine) (h : ls.all lineWfB = true) :
    stripHeaders (renderLines ls) = textLines ls := by
  obtain ⟨st, hs, hst⟩ := lines_scan ls h
  unfold stripHeaders
  rw [hs]
  rcases hst with rfl | rfl <;> simp [shFlush]

theorem generate_workflow_fallback_decomp (content output_dir : String) (name : Option String)
    (hex : String) (h : sectionMarkersPresent (clean_generated_code content) = false) :
    ∃ suf : List Char,
      ((generate_workflow "Demo workflow" content output_dir name hex).2).data =
        FNKT_PFX.data ++ suf := by
  have hps : parseSections (clean_generated_code content) =
      ("# No helper functions provided", pyStripStr (clean_generated_code content)) := by
    unfold parseSections
    rw [h]
    simp
  have hgw : (generate_workflow "Demo workflow" content output_dir name hex).2 =
      clean_generated_code (renderTemplate "Demo workflow"
        (parseSections (clean_generated_code content)).1
        (parseSections (clean_generated_code content)).2) := rfl
  have hclean : ∀ t : String,
      (clean_generated_code t).data = pyStrip (stripHeaders (subFences t.data)) := fun _ => rfl
  have hrdata : (renderTemplate "Demo workflow" "# No helper functions provided"
      (pyStripStr (clean_generated_code content))).data =
      FNKT_P1.data ++ ((pyStripStr (clean_generated_code content)).data ++ TPL4.data) := by
    simp [renderTemplate, FNKT_P1, FNKT_D0, String.data_append, List.append_assoc]
  rw [hgw, hps, hclean, hrdata, subFences_append_of_no_bq _ _ no_bq_P1]
  have hstrip : stripHeaders (FNKT_P1.data ++
      subFences ((pyStripStr (clean_generated_code content)).data ++ TPL4.data)) =
      (FNKT_PFX ++ FNKT_A1).data ++
        ((scanRun shStep SH.normal
            (subFences ((pyStripStr (clean_generated_code content)).data ++ TPL4.data))).2 ++
          shFlush (scanRun shStep SH.normal
            (subFences ((pyStripStr (clean_generated_code content)).data ++ TPL4.data))).1) := by
    unfold stripHeaders
    rw [scanRun_append, shRun_P1]
    simp [List.append_assoc]
  rw [hstrip]
  exact pyStrip_prefix_decomp _

/-! ## Claim theorems -/

/-- Claim C1, counterexample.  The claim says validation succeeds exactly when
every mapping splits into exactly two non-empty segments on the colon, and that
any other mapping raises a `ValidationError` before a process is spawned.  The
mapping consisting of a single colon has two empty segments, so it is invalid
in the claim's sense, yet `run_in_container` accepts it (the code only checks
that a colon occurs somewhere) and reaches the spawn with it. -/
theorem c1_counterexample :
    validMappingSpec ":" = false ∧
    run_in_container (fun _ => true) "python3" "e2b" "script.py" [] [":"] =
      RunnerOutcome.spawn ["python3", "script.py", "--artifacts", ":"] :=
  ⟨by decide, by decide⟩

/-- Claim C1, amended.  For an existing script path, validation succeeds
exactly when every mapping contains at least one colon; otherwise the run
raises `ValueError` for the first colon-free mapping, before any process is
spawned (the outcome is `invalidMapping`, not `spawn`).  No requirement is
placed on the number of separators or on the segments being non-empty. -/
theorem c1_amended_thm (fsExists : String → Bool) (exe container s : String)
    (args arts : List String) (h : fsExists s = true) :
    run_in_container fsExists exe container s args arts =
      match arts.find? (fun m => !(hasColon m.data)) with
      | some m => RunnerOutcome.invalidMapping ("Invalid artifact mapping format: " ++ m)
      | none => RunnerOutcome.spawn ([exe, s] ++ args ++ artifactPairs arts) :=
  run_in_container_spec fsExists exe container s args arts h

/-- Witness for C1's amended theorem at a concrete input: the first mapping
lacking a colon is reported. -/
theorem c1_amended_witness :
    run_in_container (fun _ => true) "python3" "e2b" "script.py" ["arg1"] ["a:b", "bad", "c"] =
      match ["a:b", "bad", "c"].find? (fun m => !(hasColon m.data)) with
      | some m => RunnerOutcome.invalidMapping ("Invalid artifact mapping format: " ++ m)
      | none => RunnerOutcome.spawn (["python3", "script.py"] ++ ["arg1"] ++
          artifactPairs ["a:b", "bad", "c"]) :=
  c1_amended_thm (fun _ => true) "python3" "e2b" "script.py" ["arg1"] ["a:b", "bad", "c"] rfl

/-- Claim C2: for an existing script path and mappings that are valid in the
claim's sense (exactly two non-empty segments on the colon), the constructed
argument vector is the interpreter, the script path, the positional script
arguments in order, then one `--artifacts <mapping>` pair per mapping in input
order, all after the positional arguments. -/
theorem c2_argument_vector (fsExists : String → Bool) (exe container s : String)
    (args arts : List String) (h : fsExists s = true)
    (hv : ∀ m ∈ arts, validMappingSpec m = true) :
    run_in_container fsExists exe container s args arts =
      RunnerOutcome.spawn ([exe, s] ++ args ++ artifactPairs arts) := by
  rw [run_in_container_spec fsExists exe container s args arts h]
  have hnone : arts.find? (fun m => !(hasColon m.data)) = none := by
    rw [List.find?_eq_none]
    intro m hm
    simp [validMappingSpec_hasColon m (hv m hm)]
  rw [hnone]

/-- Witness for C2 at a concrete input. -/
theorem c2_argument_vector_witness :
    run_in_container (fun _ => true) "python3" "e2b" "script.py" ["x", "y"] ["a:b", "c:d"] =
      RunnerOutcome.spawn (["python3", "script.py"] ++ ["x", "y"] ++ artifactPairs ["a:b", "c:d"]) :=
  c2_argument_vector (fun _ => true) "python3" "e2b" "script.py" ["x", "y"] ["a:b", "c:d"]
    rfl (by decide)

/-- Claim C5: when the script path does not exist, `run_in_container` raises
`FileNotFoundError` with the script path in the message, and never reaches the
spawn, regardless of the remaining arguments. -/
theorem c5_missing_script (fsExists : String → Bool) (exe container s : String)
    (args arts : List String) (h : fsExists s = false) :
    run_in_container fsExists exe container s args arts =
      RunnerOutcome.fileNotFound ("Script not found: " ++ s) ∧
    ∀ cmd, run_in_container fsExists exe container s args arts ≠ RunnerOutcome.spawn cmd := by
  constructor
  · simp [run_in_container, h]
  · intro cmd
    simp [run_in_container, h]

/-- Witness for C5 at a concrete input. -/
theorem c5_missing_script_witness :
    run_in_container (fun _ => false) "python3" "e2b" "missing.py" ["a"] ["x:y"] =
      RunnerOutcome.fileNotFound ("Script not found: " ++ "missing.py") ∧
    ∀ cmd, run_in_container (fun _ => false) "python3" "e2b" "missing.py" ["a"] ["x:y"] ≠
      RunnerOutcome.spawn cmd :=
  c5_missing_script (fun _ => false) "python3" "e2b" "missing.py" ["a"] ["x:y"] rfl

/-- Claim C6: a non-zero child exit code makes `run_in_container` raise
`ContainerExecutionError`; the message contains the exit code, and when the
captured stderr is non-empty it is appended to the message. -/
theorem c6_nonzero_exit (rc : Int) (out err : String) (h : rc ≠ 0) :
    handleProcessResult rc out err = Except.error (containerErrorMsg rc err) ∧
    (∃ pre suf : String, containerErrorMsg rc err = pre ++ toString rc ++ suf) ∧
    (err ≠ "" → containerErrorMsg rc err =
      "Container execution failed with exit code " ++ toString rc ++
        ("\nError output:\n" ++ err)) := by
  refine ⟨by simp [handleProcessResult, h], ?_, ?_⟩
  · by_cases he : err = ""
    · exact ⟨"Container execution failed with exit code ", "",
        by simp [containerErrorMsg, he]⟩
    · exact ⟨"Container execution failed with exit code ", "\nError output:\n" ++ err,
        by simp [containerErrorMsg, he, String.append_assoc]⟩
  · intro he
    simp [containerErrorMsg, he, String.append_assoc]

/-- Witness for C6 at exit code 1 with non-empty stderr. -/
theorem c6_nonzero_exit_witness :
    handleProcessResult 1 "" "boom" = Except.error (containerErrorMsg 1 "boom") ∧
    (∃ pre suf : String, containerErrorMsg 1 "boom" = pre ++ toString (1 : Int) ++ suf) ∧
    (("boom" : String) ≠ "" → containerErrorMsg 1 "boom" =
      "Container execution failed with exit code " ++ toString (1 : Int) ++
        ("\nError output:\n" ++ "boom")) :=
  c6_nonzero_exit 1 "" "boom" (by decide)

/-- Claim C7, counterexample.  The claim says the post-processing collapses
every run of two or more blank lines into a single blank line; the code has no
such pass: a three-blank-line run goes through `clean_generated_code`
unchanged instead of becoming one blank line. -/
theorem c7_counterexample :
    clean_generated_code "a\n\n\n\nb" = "a\n\n\n\nb" ∧
    ("a\n\n\n\nb" : String) ≠ "a\n\nb" :=
  ⟨by decide, by decide⟩

/-- Claim C7, amended.  The post-processing strips fence and heading markers
and trims leading and trailing whitespace, but does not collapse blank-line
runs: on text free of hash marks and backticks it is exactly `str.strip`,
leaving every interior blank line in place. -/
theorem c7_amended_thm (s : String) (h1 : '#' ∉ s.data) (h2 : bq ∉ s.data) :
    clean_generated_code s = pyStripStr s :=
  clean_eq_strip_of_plain s h1 h2

/-- Witness for C7's amended theorem on a blank-line run. -/
theorem c7_amended_witness :
    clean_generated_code "a\n\n\n\nb" = pyStripStr "a\n\n\n\nb" :=
  c7_amended_thm "a\n\n\n\nb" (by decide) (by decide)

/-- Claim C3, counterexample.  The claim says all text other than the markers
is preserved verbatim.  For the input made of a fence, the text `" a "`, and a
fence, both fence markers are removed but the final `strip` also discards the
surrounding spaces: the output is `"a"`, not the verbatim `" a "`. -/
theorem c3_counterexample :
    clean_generated_code "``` a ```" = "a" ∧ ("a" : String) ≠ " a " :=
  ⟨by decide, by decide⟩

/-- Claim C3, amended.  `clean_generated_code` removes every fence marker and
every heading marker, wherever they occur, and preserves the remaining text
only up to the final trim: for every input that is a canonical interleaving of
fence markers (bare or with the `python` info word) with backtick-free text,
whose text stream is in turn a sequence of lines each either ordinary or
opened by a heading marker (hash run plus a non-empty horizontal whitespace
run, with heading text starting in a non-whitespace character — markers whose
greedy whitespace run would also absorb adjacent text whitespace or the line
break are the disclosed exception), the result is exactly the marker-free
text passed through `str.strip`. -/
theorem c3_amended_thm (toks : List MdTok) (ls : List MdLine)
    (h1 : mdWfB toks = true) (h2 : textOf toks = renderLines ls)
    (h3 : ls.all lineWfB = true) :
    clean_generated_code (String.mk (renderToks toks)) =
      pyStripStr (String.mk (textLines ls)) := by
  unfold clean_generated_code pyStripStr
  rw [show (String.mk (renderToks toks)).data = renderToks toks from rfl,
    show (String.mk (textLines ls)).data = textLines ls from rfl,
    subFences_tokens toks h1, h2, stripHeaders_lines ls h3]

/-- Witness for C3's amended theorem: a heading marker on the first line, a
double fence around interior text, a fence with the `python` info word, and a
second heading marker on the last line are all removed while the remaining
text survives up to the trim. -/
theorem c3_amended_witness :
    clean_generated_code (String.mk (renderToks
      [MdTok.text ("# one\n".data), MdTok.fence, MdTok.text ("two ".data),
       MdTok.fencePy, MdTok.text ("\n## three".data)])) =
      pyStripStr (String.mk (textLines
        [MdLine.header 0 [' '] ("one".data), MdLine.plain ("two ".data),
         MdLine.header 1 [' '] ("three".data)])) :=
  c3_amended_thm
    [MdTok.text ("# one\n".data), MdTok.fence, MdTok.text ("two ".data),
     MdTok.fencePy, MdTok.text ("\n## three".data)]
    [MdLine.header 0 [' '] ("one".data), MdLine.plain ("two ".data),
     MdLine.header 1 [' '] ("three".data)]
    (by decide) (by decide) (by decide)

/-- Claim C4, counterexample.  The claim says an empty completion response
makes `generate_workflow` fail with a `GenerationError` instead of writing a
script file.  The code has no such error path: with the empty response it
still writes a non-empty script (the rendered fallback template) at the
derived path. -/
theorem c4_counterexample :
    (generate_workflow "Demo workflow" "" "workflows" (some "out") "deadbeef").1 =
      "workflows/out.py" ∧
    (generate_workflow "Demo workflow" "" "workflows" (some "out") "deadbeef").2 ≠ "" := by
  constructor
  · decide
  · obtain ⟨suf, hsuf⟩ :=
      generate_workflow_fallback_decomp "" "workflows" (some "out") "deadbeef" (by decide)
    intro he
    rw [he] at hsuf
    have : FNKT_PFX.data ++ suf ≠ [] := by
      have hh : (FNKT_PFX.data ++ suf).head? = some '#' := by
        have : FNKT_PFX.data = '#' :: FNKT_PFX.data.tail := by decide
        rw [this]
        rfl
      intro hnil
      rw [hnil] at hh
      simp at hh
    exact this hsuf.symm

/-- Claim C4, amended.  `generate_workflow` never raises a generation error:
for every completion response, the empty one included, it writes a script file
at the join of the output directory and the derived name, and the derived name
always ends in `.py`. -/
theorem c4_amended_thm (description content output_dir : String) (name : Option String)
    (hex : String) :
    (generate_workflow description content output_dir name hex).1 =
      ospath_join output_dir (pyDeriveName name hex) ∧
    pyEndsWith (pyDeriveName name hex) ".py" = true := by
  refine ⟨rfl, ?_⟩
  cases name with
  | none => exact pyEndsWith_append_py ("workflow_" ++ hex)
  | some n =>
    by_cases h0 : n = ""
    · subst h0
      exact pyEndsWith_append_py ("workflow_" ++ hex)
    · by_cases hp : pyEndsWith n ".py" = true
      · simp [pyDeriveName, h0, hp]
      · simp only [pyDeriveName, if_neg h0, if_neg hp]
        exact pyEndsWith_append_py n

/-- Claim C8, counterexample.  The claim says that with no explicit name the
filename is a slug of the description, so `"Download All Images From A
Site!!"` should yield `download_all_images_from_a_site.py`.  The code instead
names the file `workflow_<8 uuid hex digits>.py`, ignoring the description
(here with the hex digits `f75be458`, as in the repository's own
`workflows/workflow_f75be458.py`). -/
theorem c8_counterexample :
    (generate_workflow "Download All Images From A Site!!" "" "workflows" none "f75be458").1 =
      "workflows/workflow_f75be458.py" ∧
    ("workflows/workflow_f75be458.py" : String) ≠
      "workflows/download_all_images_from_a_site.py" :=
  ⟨by decide, by decide⟩

/-- Claim C8, amended.  With no explicit name the filename is
`workflow_<uuid hex digits>.py`, independent of the description; with an
explicit non-empty name the written filename always ends in `.py`. -/
theorem c8_amended_thm (hex : String) :
    pyDeriveName none hex = "workflow_" ++ hex ++ ".py" ∧
    ∀ n : String, n ≠ "" → pyEndsWith (pyDeriveName (some n) hex) ".py" = true := by
  refine ⟨rfl, ?_⟩
  intro n hn
  by_cases hp : pyEndsWith n ".py" = true
  · simp [pyDeriveName, hn, hp]
  · simp only [pyDeriveName, if_neg hn, if_neg hp]
    exact pyEndsWith_append_py n

/-- Witness for C8's amended theorem at a concrete name. -/
theorem c8_amended_witness :
    pyDeriveName none "f75be458" = "workflow_" ++ "f75be458" ++ ".py" ∧
    pyEndsWith (pyDeriveName (some "site_images") "f75be458") ".py" = true :=
  ⟨(c8_amended_thm "f75be458").1, (c8_amended_thm "f75be458").2 "site_images" (by decide)⟩

/-- Claim C9: generating twice with the same explicit (non-empty) name and
output directory yields the same path, and the second write overwrites the
file at that path with the second call's script text. -/
theorem c9_idempotent_path (fs : String → Option String)
    (d1 c1 d2 c2 output_dir n h1 h2 : String) (hn : n ≠ "") :
    ((generate_workflow_fs (generate_workflow_fs fs d1 c1 output_dir (some n) h1).2
        d2 c2 output_dir (some n) h2).1 =
      (generate_workflow_fs fs d1 c1 output_dir (some n) h1).1) ∧
    ((generate_workflow_fs (generate_workflow_fs fs d1 c1 output_dir (some n) h1).2
        d2 c2 output_dir (some n) h2).2
        ((generate_workflow_fs fs d1 c1 output_dir (some n) h1).1) =
      some ((generate_workflow d2 c2 output_dir (some n) h2).2)) := by
  have hp : pyDeriveName (some n) h2 = pyDeriveName (some n) h1 := by
    simp [pyDeriveName, hn]
  constructor
  · simp only [generate_workflow_fs, generate_workflow, writeFile]
    rw [hp]
  · simp only [generate_workflow_fs, generate_workflow, writeFile]
    rw [hp]
    simp

/-- Witness for C9 at concrete inputs. -/
theorem c9_idempotent_path_witness :
    ((generate_workflow_fs (generate_workflow_fs (fun _ => none)
        "a" "b" "workflows" (some "job") "h1").2
        "c" "d" "workflows" (some "job") "h2").1 =
      (generate_workflow_fs (fun _ => none) "a" "b" "workflows" (some "job") "h1").1) ∧
    ((generate_workflow_fs (generate_workflow_fs (fun _ => none)
        "a" "b" "workflows" (some "job") "h1").2
        "c" "d" "workflows" (some "job") "h2").2
        ((generate_workflow_fs (fun _ => none) "a" "b" "workflows" (some "job") "h1").1) =
      some ((generate_workflow "c" "d" "workflows" (some "job") "h2").2)) :=
  c9_idempotent_path (fun _ => none) "a" "b" "c" "d" "workflows" "job" "h1" "h2" (by decide)

/-- Claim C10: because `clean_generated_code` is applied a second time to the
fully rendered script, the fallback placeholder `# No helper functions
provided` — a column-0 hash-and-space line of the rendered template — is
written without its comment marker: for every completion response lacking the
section markers, the written file is the concrete cleaned prefix (docstring,
then the bare text `No helper functions provided`, then
`def setup_dependencies():`) followed by some suffix. -/
theorem c10_fallback_placeholder (content output_dir : String) (name : Option String)
    (hex : String) (h : sectionMarkersPresent (clean_generated_code content) = false) :
    ∃ suf : List Char,
      ((generate_workflow "Demo workflow" content output_dir name hex).2).data =
        FNKT_PFX.data ++ suf :=
  generate_workflow_fallback_decomp content output_dir name hex h

/-- Witness for C10 at a concrete marker-free completion response. -/
theorem c10_fallback_placeholder_witness :
    ∃ suf : List Char,
      ((generate_workflow "Demo workflow" "print(1)" "workflows" (some "t") "abcd1234").2).data =
        FNKT_PFX.data ++ suf :=
  c10_fallback_placeholder "print(1)" "workflows" (some "t") "abcd1234" (by decide)

end Fnkt
